import Mathlib

/-!
Verification of hive/server/bridge_api/objects.py: the condenser-compatible
object-hydration layer (post builder, batch loaders, amount/date/vote helpers).

Modelling conventions:
  - Python strings are embedded as lists of characters (`Str`), so that the
    slicing and single-character `split`/`join` operations of the source can
    be stated and reasoned about directly.
  - Currency amounts are embedded as exact integer milli-units (the database
    column is a 3-decimal value, so the "%.3f" rendering of the source is
    exact and is embedded as decimal formatting of milli-units).
  - Fallible Python code (assert, unpacking, dict KeyError, NoneType access)
    is embedded in `Except String`, with the error message naming the Python
    exception it embeds.
  - External collaborators that are part of the repository but outside the
    translated module (hive.utils.normalize) or third-party (ujson) are
    parameters, collected in the `Externals` structure.
-/

/-- Python strings, embedded as lists of characters. -/
abbrev Str := List Char

/-- Coerce a Lean string literal to the `Str` embedding. -/
def str (s : String) : Str := s.data

/-- Python single-character `s.split(sep)`: splits at every occurrence of the
separator, keeping empty fields; the empty string yields one empty field. -/
def splitOnChar (c : Char) : Str → List Str
  | [] => [[]]
  | x :: xs =>
    let r := splitOnChar c xs
    if x = c then [] :: r
    else
      match r with
      | [] => [[x]]
      | h :: t => (x :: h) :: t

/-- Python `sep.join(parts)` for a single-character separator. -/
def joinWith (c : Char) : List Str → Str
  | [] => []
  | [l] => l
  | l :: ls => l ++ c :: joinWith c ls

/-- Python slice `s[0:n]`: for `n ≥ 0` the first `n` characters (clamped),
for `n < 0` all but the last `|n|` characters (clamped at zero). -/
def pySlice0 (s : Str) (n : Int) : Str :=
  if 0 ≤ n then s.take n.toNat else s.take (s.length - (-n).toNat)

/-- Left-pad the fractional part to three digits. -/
def pad3 (n : Nat) : Str :=
  if n < 10 then '0' :: '0' :: Nat.toDigits 10 n
  else if n < 100 then '0' :: Nat.toDigits 10 n
  else Nat.toDigits 10 n

/-- Python `"%.3f" % amount` on an exact milli-unit integer amount. -/
def fmt3 (m : Int) : Str :=
  if m < 0 then '-' :: (Nat.toDigits 10 ((-m).toNat / 1000) ++ '.' :: pad3 ((-m).toNat % 1000))
  else Nat.toDigits 10 (m.toNat / 1000) ++ '.' :: pad3 (m.toNat % 1000)

/-- The string produced by `_amount` for the (only supported) SBD asset. -/
def amountSBD (m : Int) : Str := fmt3 m ++ str (" SBD")

/-- Legacy-only fields carried in the `raw_json` blob of a cache row
(parsed out by `ujson.loads` in the source). -/
structure RawJson where
  parent_author : Str
  parent_permlink : Str
  url : Str
  root_title : Str
  beneficiaries : Str
  max_accepted_payout : Str
  percent_steem_dollars : Str
  curator_payout_value : Str
deriving DecidableEq, Inhabited

/-- Modelled from the spec: the external pure collaborators consumed by the
module and absent from src/ — `rep_to_raw` (the Reputation Encoder of
hive.utils.normalize, raw internal score to legacy integer encoding),
`sbd_amount` (the currency parser of hive.utils.normalize, legacy currency
string to numeric amount with the asset tag discarded; embedded in exact
milli-units), and `json_loads` (third-party ujson parse of the raw_json
blob into its legacy fields). -/
structure Externals where
  rep_to_raw : Str → Int
  sbd_amount : Str → Int
  json_loads : Str → RawJson

/-- One row of hive_posts_cache, as selected by `load_posts_keyed`, together
with the `author_rep` slot that the loader assigns into the row dict before
building (`row['author_rep'] = author_reps[row['author']]`). -/
structure PostCacheRow where
  post_id : Int
  author : Str
  permlink : Str
  title : Str
  body : Str
  category : Str
  depth : Int
  promoted : Int
  payout : Int
  payout_at : Option Str
  is_paidout : Bool
  children : Int
  votes : Str
  created_at : Option Str
  updated_at : Option Str
  rshares : Int
  raw_json : Str
  json : Str
  is_hidden : Bool
  is_grayed : Bool
  total_votes : Int
  author_rep : Str
deriving DecidableEq, Inhabited

/-- One row of hive_posts (canonical record): id, flags, and the fields read
by the cache-miss recovery query. -/
structure PostsRow where
  id : Int
  author : Str
  permlink : Str
  depth : Int
  created_at : Option Str
  is_deleted : Bool
  is_pinned : Bool
  is_muted : Bool
  is_valid : Bool
deriving DecidableEq, Inhabited

/-- The `stats` sub-object of a built post; the pin/mute/valid flags are
`none` until (and unless) `load_posts_keyed` merges a hive_posts row. -/
structure Stats where
  hide : Bool
  gray : Bool
  total_votes : Int
  is_pinned : Option Bool
  is_muted : Option Bool
  is_valid : Option Bool
deriving DecidableEq, Inhabited

/-- One decoded entry of the vote CSV. -/
structure VoteEntry where
  voter : Str
  rshares : Str
  percent : Str
  reputation : Int
deriving DecidableEq, Inhabited

/-- The legacy-style post object produced by `_condenser_post_object`.
`replies` is always the empty list in this layer (populated elsewhere);
its element type is immaterial. -/
structure Post where
  post_id : Int
  author : Str
  permlink : Str
  category : Str
  title : Str
  body : Str
  json_metadata : Str
  created : Str
  last_update : Str
  depth : Int
  children : Int
  net_rshares : Int
  last_payout : Str
  cashout_time : Str
  total_payout_value : Str
  curator_payout_value : Str
  pending_payout_value : Str
  promoted : Str
  replies : List Str
  body_length : Nat
  active_votes : List VoteEntry
  author_reputation : Int
  stats : Stats
  parent_author : Str
  parent_permlink : Str
  url : Str
  root_title : Str
  beneficiaries : Str
  max_accepted_payout : Str
  percent_steem_dollars : Str
deriving DecidableEq, Inhabited

/-- `_amount(amount, asset='SBD')`: steem-style amount string; the assert on
the asset tag is embedded as an error result. The source relies on the
default argument, so call sites pass the SBD tag explicitly here. -/
def _amount (m : Int) (asset : Str) : Except String Str :=
  if asset = str ("SBD") then Except.ok (amountSBD m)
  else Except.error ("AssertionError: unhandled asset")

/-- `_json_date(date)`: sentinel for an absent (None or empty, i.e. falsy)
date, else the space-to-T substitution via split and join. -/
def _json_date (date : Option Str) : Str :=
  match date with
  | none => str ("1969-12-31T23:59:59")
  | some d => if d = [] then str ("1969-12-31T23:59:59")
              else joinWith 'T' (splitOnChar ' ' d)

/-- The per-line body of the `_hydrate_active_votes` loop: unpack the
4-field comma-separated line (a wrong arity raises ValueError) and re-encode
the reputation field. -/
def decodeVotes (ext : Externals) : List Str → Except String (List VoteEntry)
  | [] => Except.ok []
  | line :: rest =>
    match splitOnChar ',' line with
    | [voter, rshares, percent, reputation] => do
      let rest2 ← decodeVotes ext rest
      Except.ok ({ voter := voter, rshares := rshares, percent := percent,
                   reputation := ext.rep_to_raw reputation } :: rest2)
    | _ => Except.error ("ValueError: not enough values to unpack")

/-- `_hydrate_active_votes(vote_csv)`: empty (falsy) input is the empty
list; otherwise decode each newline-separated line. -/
def _hydrate_active_votes (ext : Externals) (vote_csv : Str) : Except String (List VoteEntry) :=
  if vote_csv = [] then Except.ok []
  else decodeVotes ext (splitOnChar '\n' vote_csv)

/-- `_condenser_post_object(row, truncate_body=0)`: build the legacy-style
post object from a hive_posts_cache row, following the source line by line.
The two asserts on `raw_json` (truthiness, then length > 32) are embedded as
error results, raised after the vote hydration as in the source. -/
def _condenser_post_object (ext : Externals) (row : PostCacheRow) (truncate_body : Int) :
    Except String Post := do
  let paid := row.is_paidout
  -- condenser#3424 mitigation: empty category is rewritten in the row dict
  let category := if row.category = [] then str ("undefined") else row.category
  -- row['body'][0:truncate_body] if truncate_body else row['body']
  let body := if truncate_body ≠ 0 then pySlice0 row.body truncate_body else row.body
  let total_payout0 ← _amount (if paid then row.payout else 0) (str ("SBD"))
  let curator_payout0 ← _amount 0 (str ("SBD"))
  let pending_payout ← _amount (if paid then 0 else row.payout) (str ("SBD"))
  let active_votes ← _hydrate_active_votes ext row.votes
  if row.raw_json = [] then throw ("AssertionError: raw_json")
  if row.raw_json.length ≤ 32 then throw ("AssertionError: len raw_json")
  let raw_json := ext.json_loads row.raw_json
  let pp := if row.depth > 0 then (raw_json.parent_author, raw_json.parent_permlink)
            else ([], category)
  let payouts ←
    if paid then do
      let curator_payout := ext.sbd_amount raw_json.curator_payout_value
      let c ← _amount curator_payout (str ("SBD"))
      let t ← _amount (row.payout - curator_payout) (str ("SBD"))
      Except.ok (c, t)
    else
      Except.ok (curator_payout0, total_payout0)
  Except.ok {
    post_id := row.post_id
    author := row.author
    permlink := row.permlink
    category := category
    title := row.title
    body := body
    json_metadata := row.json
    created := _json_date row.created_at
    last_update := _json_date row.updated_at
    depth := row.depth
    children := row.children
    net_rshares := row.rshares
    last_payout := _json_date (if paid then row.payout_at else none)
    cashout_time := _json_date (if paid then none else row.payout_at)
    total_payout_value := payouts.2
    curator_payout_value := payouts.1
    pending_payout_value := pending_payout
    promoted := fmt3 row.promoted ++ str (" SBD")
    replies := []
    body_length := row.body.length
    active_votes := active_votes
    author_reputation := ext.rep_to_raw row.author_rep
    stats := { hide := row.is_hidden, gray := row.is_grayed,
               total_votes := row.total_votes,
               is_pinned := none, is_muted := none, is_valid := none }
    parent_author := pp.1
    parent_permlink := pp.2
    url := raw_json.url
    root_title := raw_json.root_title
    beneficiaries := raw_json.beneficiaries
    max_accepted_payout := raw_json.max_accepted_payout
    percent_steem_dollars := raw_json.percent_steem_dollars }

/-- The value `_condenser_post_object` produces on the success path, as a
total function of the row and the decoded votes (used to characterize the
builder in the lemmas below). -/
def postOf (ext : Externals) (row : PostCacheRow) (truncate_body : Int)
    (active_votes : List VoteEntry) : Post :=
  { post_id := row.post_id
    author := row.author
    permlink := row.permlink
    category := if row.category = [] then str ("undefined") else row.category
    title := row.title
    body := if truncate_body ≠ 0 then pySlice0 row.body truncate_body else row.body
    json_metadata := row.json
    created := _json_date row.created_at
    last_update := _json_date row.updated_at
    depth := row.depth
    children := row.children
    net_rshares := row.rshares
    last_payout := _json_date (if row.is_paidout then row.payout_at else none)
    cashout_time := _json_date (if row.is_paidout then none else row.payout_at)
    total_payout_value :=
      if row.is_paidout then
        amountSBD (row.payout - ext.sbd_amount (ext.json_loads row.raw_json).curator_payout_value)
      else amountSBD 0
    curator_payout_value :=
      if row.is_paidout then
        amountSBD (ext.sbd_amount (ext.json_loads row.raw_json).curator_payout_value)
      else amountSBD 0
    pending_payout_value := amountSBD (if row.is_paidout then 0 else row.payout)
    promoted := fmt3 row.promoted ++ str (" SBD")
    replies := []
    body_length := row.body.length
    active_votes := active_votes
    author_reputation := ext.rep_to_raw row.author_rep
    stats := { hide := row.is_hidden, gray := row.is_grayed,
               total_votes := row.total_votes,
               is_pinned := none, is_muted := none, is_valid := none }
    parent_author :=
      if row.depth > 0 then (ext.json_loads row.raw_json).parent_author else []
    parent_permlink :=
      if row.depth > 0 then (ext.json_loads row.raw_json).parent_permlink
      else if row.category = [] then str ("undefined") else row.category
    url := (ext.json_loads row.raw_json).url
    root_title := (ext.json_loads row.raw_json).root_title
    beneficiaries := (ext.json_loads row.raw_json).beneficiaries
    max_accepted_payout := (ext.json_loads row.raw_json).max_accepted_payout
    percent_steem_dollars := (ext.json_loads row.raw_json).percent_steem_dollars }

/-- The storage collaborator: hive_posts_cache keyed by post_id, hive_posts
keyed by id, and the hive_accounts name-to-reputation lookup performed by
`_query_author_rep_map` (authors of fetched posts are assumed present, as
the source indexes the map unconditionally). -/
structure DB where
  cache : Int → Option PostCacheRow
  posts : Int → Option PostsRow
  account_rep : Str → Str

/-- Python dict lookup on the id-keyed association list of built posts. -/
def alookup : List (Int × Post) → Int → Option Post
  | [], _ => none
  | (k, v) :: rest, j => if j = k then some v else alookup rest j

/-- Python `list.remove(x)`: drop the first occurrence (the source only
calls it on ids known to be present, so the absent case is the identity). -/
def eraseFirst : List Int → Int → List Int
  | [], _ => []
  | x :: xs, i => if x = i then xs else x :: eraseFirst xs i

/-- Number of occurrences of an id in a list. -/
def occ : List Int → Int → Nat
  | [], _ => 0
  | x :: xs, i => (if x = i then 1 else 0) + occ xs i

/-- Merging one hive_posts flags row into a built post's stats block. -/
def mergeFlags (p : Post) (fr : PostsRow) : Post :=
  { p with stats :=
      { p.stats with
        is_pinned := some fr.is_pinned
        is_muted := some fr.is_muted
        is_valid := some fr.is_valid } }

/-- The per-row loop of `load_posts_keyed`: assign the author reputation
into the row, build the post, and key it by the row's post_id. -/
def buildRows (ext : Externals) (db : DB) (truncate_body : Int) :
    List PostCacheRow → Except String (List (Int × Post))
  | [] => Except.ok []
  | row :: rest => do
    let post ← _condenser_post_object ext
      { row with author_rep := db.account_rep row.author } truncate_body
    let rest2 ← buildRows ext db truncate_body rest
    Except.ok ((row.post_id, post) :: rest2)

/-- `load_posts_keyed(ids, truncate_body=0)`: assert a non-empty id list,
fetch the cache rows for the distinct requested ids, build each post keyed
by id, then merge pin/mute/valid flags for ids that have a hive_posts row.
The SQL `IN` fetch returns each matching row once; its unspecified result
order is embedded as first-request order, which is irrelevant to the keyed
result. -/
def load_posts_keyed (ext : Externals) (db : DB) (ids : List Int) (truncate_body : Int) :
    Except String (List (Int × Post)) := do
  if ids = [] then throw ("AssertionError: no ids passed to load_posts_keyed")
  let rows := ids.dedup.filterMap db.cache
  let posts_by_id ← buildRows ext db truncate_body rows
  Except.ok (posts_by_id.map (fun ip =>
    match db.posts ip.1 with
    | some fr => (ip.1, mergeFlags ip.2 fr)
    | none => (ip.1, ip.2)))

/-- A log line of the loaders: the batch cache-miss warning, the per-id
deleted-post warning, or the per-id missing-post error. -/
inductive LogEntry where
  | warnMissed (missed : List Int)
  | warnDeleted (id : Int)
  | errMissing (id : Int)
deriving DecidableEq

/-- The recovery loop of `load_posts` over the missed ids: remove the id
from the caller's list, fetch the canonical hive_posts record (indexing a
missing row raises TypeError), and log warning or error by is_deleted. -/
def recoverMissed (db : DB) :
    List Int → List Int → List LogEntry → Except String (List Int × List LogEntry)
  | [], ids, lg => Except.ok (ids, lg)
  | i :: rest, ids, lg =>
    let ids2 := eraseFirst ids i
    match db.posts i with
    | none => Except.error ("TypeError: NoneType is not subscriptable")
    | some p =>
      recoverMissed db rest ids2
        (lg ++ [if p.is_deleted then LogEntry.warnDeleted i else LogEntry.errMissing i])

/-- The final comprehension of `load_posts`: look every remaining id up in
the keyed result (a missing key raises KeyError). -/
def lookupAll (posts_by_id : List (Int × Post)) : List Int → Except String (List Post)
  | [] => Except.ok []
  | i :: rest =>
    match alookup posts_by_id i with
    | none => Except.error ("KeyError")
    | some p => do
      let rest2 ← lookupAll posts_by_id rest
      Except.ok (p :: rest2)

/-- The outcome of one `load_posts` call: the returned posts, the caller's
ids list as it stands after the call (the source mutates it in place), and
the log lines emitted. -/
structure LoadResult where
  posts : List Post
  finalIds : List Int
  log : List LogEntry
deriving DecidableEq

/-- `load_posts(ids, truncate_body=0)`: empty input short-circuits to an
empty result; otherwise delegate to `load_posts_keyed`, compute the missed
ids (set difference, embedded as order-of-first-occurrence dedup), run the
recovery loop (which removes each missed id from the caller's list), and
re-project the survivors in caller order. -/
def load_posts (ext : Externals) (db : DB) (ids : List Int) (truncate_body : Int) :
    Except String LoadResult :=
  if ids = [] then Except.ok { posts := [], finalIds := [], log := [] }
  else do
    let posts_by_id ← load_posts_keyed ext db ids truncate_body
    let missed := (ids.filter (fun i => (alookup posts_by_id i).isNone)).dedup
    let log0 := if missed = [] then [] else [LogEntry.warnMissed missed]
    let idlog ← recoverMissed db missed ids log0
    let posts ← lookupAll posts_by_id idlog.1
    Except.ok { posts := posts, finalIds := idlog.1, log := idlog.2 }

/-- The post that `load_posts` returns for a single id, as a function of the
stores: the cache row (if any), built with its author's reputation, with the
flags row merged when present. `none` when the id has no cache row (or the
build fails). -/
def kPost (ext : Externals) (db : DB) (truncate_body : Int) (i : Int) : Option Post :=
  match db.cache i with
  | none => none
  | some row =>
    match _condenser_post_object ext
        { row with author_rep := db.account_rep row.author } truncate_body with
    | Except.error _ => none
    | Except.ok p =>
      some (match db.posts i with
            | some fr => mergeFlags p fr
            | none => p)

/-- The log line the recovery loop emits for one missed id (meaningful when
the canonical record exists, which the recovery loop requires anyway). -/
def logFor (db : DB) (i : Int) : LogEntry :=
  match db.posts i with
  | some p => if p.is_deleted then LogEntry.warnDeleted i else LogEntry.errMissing i
  | none => LogEntry.errMissing i

/-- The missed ids of a `load_posts` call, in first-occurrence-free dedup
order: the requested ids with no cache row. -/
def missedOf (db : DB) (ids : List Int) : List Int :=
  (ids.filter (fun i => (db.cache i).isNone)).dedup

/-- The full log of a successful `load_posts` call. -/
def logOf (db : DB) (ids : List Int) : List LogEntry :=
  if missedOf db ids = [] then []
  else LogEntry.warnMissed (missedOf db ids) :: (missedOf db ids).map (logFor db)

/-- Table well-formedness at one id: a cache row filed under id i carries
post_id i (SQL-table semantics of the keyed fetch). -/
def cacheWf (db : DB) (i : Int) : Bool :=
  match db.cache i with
  | some row => decide (row.post_id = i)
  | none => true

/-- Whether the post build succeeds at one id (vacuously true for ids with
no cache row). -/
def buildOk (ext : Externals) (db : DB) (truncate_body : Int) (i : Int) : Bool :=
  match db.cache i with
  | none => true
  | some row =>
    match _condenser_post_object ext
        { row with author_rep := db.account_rep row.author } truncate_body with
    | Except.ok _ => true
    | Except.error _ => false

/-- Whether a `load_posts` call returned normally (no exception raised). -/
def loadOk (e : Except String LoadResult) : Bool :=
  match e with
  | Except.ok _ => true
  | Except.error _ => false

/-- The caller's ids list after a `load_posts` call, when it returned. -/
def finalIdsOf (e : Except String LoadResult) : Option (List Int) :=
  match e with
  | Except.ok r => some r.finalIds
  | Except.error _ => none

/-- One 4-tuple of vote fields rendered as a comma-separated line. -/
def renderVoteLine (f : Str × Str × Str × Str) : Str :=
  joinWith ',' [f.1, f.2.1, f.2.2.1, f.2.2.2]

/-- A newline-separated CSV of 4-field vote lines. -/
def voteCSV (fields : List (Str × Str × Str × Str)) : Str :=
  joinWith '\n' (fields.map renderVoteLine)

/-- The fields of one vote line are free of the two separators. -/
def voteFieldsOk (f : Str × Str × Str × Str) : Prop :=
  (',' ∉ f.1 ∧ ',' ∉ f.2.1 ∧ ',' ∉ f.2.2.1 ∧ ',' ∉ f.2.2.2)
  ∧ ('\n' ∉ f.1 ∧ '\n' ∉ f.2.1 ∧ '\n' ∉ f.2.2.1 ∧ '\n' ∉ f.2.2.2)

instance (f : Str × Str × Str × Str) : Decidable (voteFieldsOk f) := by
  unfold voteFieldsOk; infer_instance

/-- Extract the post from a successful build (default on the error path,
which the uses below never hit). -/
def getPost (e : Except String Post) : Post :=
  match e with
  | Except.ok p => p
  | Except.error _ => default

/-- Concrete legacy-field blob used by the examples. -/
def exRawJson : RawJson :=
  { parent_author := str ("alice")
    parent_permlink := str ("parent-permlink")
    url := str ("/cat/@bob/p")
    root_title := str ("root")
    beneficiaries := str ("[]")
    max_accepted_payout := str ("1000000.000 SBD")
    percent_steem_dollars := str ("10000")
    curator_payout_value := str ("2.000 SBD") }

/-- Concrete collaborators used by the examples: reputation encoded as the
field length, every currency string parsing to 2.000, and a fixed parsed
blob. -/
def exExternals : Externals :=
  { rep_to_raw := fun s => Int.ofNat s.length
    sbd_amount := fun _ => 2000
    json_loads := fun _ => exRawJson }

/-- A concrete paid cache row (payout 10.000, post id 5). -/
def exRow5 : PostCacheRow :=
  { post_id := 5
    author := str ("bob")
    permlink := str ("p")
    title := str ("t")
    body := str ("hello")
    category := str ("cat")
    depth := 0
    promoted := 0
    payout := 10000
    payout_at := some (str ("2020-01-02 03:04:05"))
    is_paidout := true
    children := 0
    votes := []
    created_at := some (str ("2020-01-01 00:00:00"))
    updated_at := none
    rshares := 0
    raw_json := str ("0123456789012345678901234567890123456789")
    json := str ("")
    is_hidden := false
    is_grayed := false
    total_votes := 3
    author_rep := str ("75") }

/-- A second cached row, post id 7. -/
def exRow7 : PostCacheRow := { exRow5 with post_id := 7, permlink := str ("q") }

/-- The same row as exRow5 but not yet paid out. -/
def exRowUnpaid : PostCacheRow := { exRow5 with is_paidout := false }

/-- The same row as exRow5 with an empty category. -/
def exRowEmptyCat : PostCacheRow := { exRow5 with category := [] }

/-- The same row as exRow5 with a too-short raw_json blob. -/
def exRowShortRaw : PostCacheRow := { exRow5 with raw_json := str ("short") }

/-- The canonical hive_posts record of the since-deleted post id 6. -/
def exPostsRow6 : PostsRow :=
  { id := 6
    author := str ("carol")
    permlink := str ("gone")
    depth := 0
    created_at := none
    is_deleted := true
    is_pinned := false
    is_muted := false
    is_valid := false }

/-- Concrete store: posts 5 and 7 are cached, post 6 only has its canonical
(deleted) record. -/
def exDB : DB :=
  { cache := fun i => if i = 5 then some exRow5 else if i = 7 then some exRow7 else none
    posts := fun i => if i = 6 then some exPostsRow6 else none
    account_rep := fun _ => str ("75") }

/-- Built example posts used by the witnesses. -/
def exPostPaid : Post := getPost (_condenser_post_object exExternals exRow5 0)

/-- Built example post, unpaid variant. -/
def exPostUnpaid : Post := getPost (_condenser_post_object exExternals exRowUnpaid 0)

/-- Built example post, truncation length 2. -/
def exPostTrunc : Post := getPost (_condenser_post_object exExternals exRow5 2)

/-- Built example post, truncation length -2. -/
def exPostNeg : Post := getPost (_condenser_post_object exExternals exRow5 (-2))

/-- Built example post, empty category. -/
def exPostEmptyCat : Post := getPost (_condenser_post_object exExternals exRowEmptyCat 0)

/-- The post built for one id before the flags merge: the cache row (if
any) built with its author reputation assigned, `none` on a miss or a
failed build. -/
def rawPost (ext : Externals) (db : DB) (truncate_body : Int) (i : Int) : Option Post :=
  match db.cache i with
  | none => none
  | some row =>
    match _condenser_post_object ext
        { row with author_rep := db.account_rep row.author } truncate_body with
    | Except.error _ => none
    | Except.ok p => some p

/-- The flags merge of `load_posts_keyed` for one keyed post. -/
def withFlags (db : DB) (i : Int) (p : Post) : Post :=
  match db.posts i with
  | some fr => mergeFlags p fr
  | none => p

@[simp] theorem exc_ok_bind {α β : Type} (a : α) (f : α → Except String β) :
    (Except.ok a >>= f) = f a := rfl

@[simp] theorem exc_error_bind {α β : Type} (e : String) (f : α → Except String β) :
    ((Except.error e : Except String α) >>= f) = Except.error e := rfl

@[simp] theorem exc_throw_eq {α : Type} (e : String) :
    (throw e : Except String α) = Except.error e := rfl

@[simp] theorem exc_pure_eq {α : Type} (a : α) :
    (pure a : Except String α) = Except.ok a := rfl

theorem amount_sbd (m : Int) : _amount m (str ("SBD")) = Except.ok (amountSBD m) := by
  simp [_amount]

theorem condenser_eq (ext : Externals) (row : PostCacheRow) (tb : Int) :
    _condenser_post_object ext row tb =
      match _hydrate_active_votes ext row.votes with
      | Except.error e => Except.error e
      | Except.ok votes =>
        if row.raw_json = [] then Except.error ("AssertionError: raw_json")
        else if row.raw_json.length ≤ 32 then Except.error ("AssertionError: len raw_json")
        else Except.ok (postOf ext row tb votes) := by
  unfold _condenser_post_object postOf
  cases hv : _hydrate_active_votes ext row.votes <;>
    cases hp : row.is_paidout <;>
      by_cases h1 : row.raw_json = [] <;>
        by_cases h2 : row.raw_json.length ≤ 32 <;>
          by_cases hd : row.depth > 0 <;>
            simp [amount_sbd, hv, hp, h1, h2, hd]

theorem condenser_ok (ext : Externals) (row : PostCacheRow) (tb : Int) (post : Post)
    (h : _condenser_post_object ext row tb = Except.ok post) :
    ∃ votes, _hydrate_active_votes ext row.votes = Except.ok votes
      ∧ row.raw_json ≠ [] ∧ 32 < row.raw_json.length
      ∧ post = postOf ext row tb votes := by
  rw [condenser_eq] at h
  cases hv : _hydrate_active_votes ext row.votes with
  | error e => rw [hv] at h; exact absurd h (by simp)
  | ok votes =>
    rw [hv] at h
    by_cases h1 : row.raw_json = [] <;> simp [h1] at h
    by_cases h2 : row.raw_json.length ≤ 32 <;> simp [h2] at h
    exact ⟨votes, rfl, h1, by omega, h.symm⟩

theorem amountSBD_zero : amountSBD 0 = str ("0.000 SBD") := by decide

/-- C4: for every post row, the built post's body_length equals the length
of the untruncated body regardless of the truncation parameter, and body
equals the first N characters of the stored body when the truncation length
N > 0 and the full stored body when N = 0. -/
theorem body_truncation (ext : Externals) (row : PostCacheRow) (tb : Int) (post : Post)
    (h : _condenser_post_object ext row tb = Except.ok post) :
    post.body_length = row.body.length
    ∧ (0 < tb → post.body = row.body.take tb.toNat)
    ∧ (tb = 0 → post.body = row.body) := by
  obtain ⟨votes, -, -, -, hp⟩ := condenser_ok ext row tb post h
  subst hp
  refine ⟨rfl, ?_, ?_⟩
  · intro ht
    have h1 : tb ≠ 0 := by omega
    simp [postOf, pySlice0, h1, ht.le]
  · intro ht
    subst ht
    simp [postOf]

/-- C10: for every negative truncation length N < 0, the built post's body
is the stored body with its last |N| characters removed (Python negative-
index slice, clamped at zero), not the full body; body_length still reports
the untruncated length. -/
theorem negative_truncation (ext : Externals) (row : PostCacheRow) (tb : Int) (post : Post)
    (h : _condenser_post_object ext row tb = Except.ok post) (hneg : tb < 0) :
    post.body = row.body.take (row.body.length - (-tb).toNat)
    ∧ post.body_length = row.body.length := by
  obtain ⟨votes, -, -, -, hp⟩ := condenser_ok ext row tb post h
  subst hp
  have h1 : tb ≠ 0 := by omega
  have h2 : ¬ (0 ≤ tb) := by omega
  exact ⟨by simp [postOf, pySlice0, h1, h2], rfl⟩

/-- C6: an empty row category is substituted by the literal "undefined"; at
depth 0 the parent author is empty and the parent permlink is the possibly
substituted category (= the built category), while at depth > 0 both parent
fields come from raw_json. -/
theorem category_parent (ext : Externals) (row : PostCacheRow) (tb : Int) (post : Post)
    (h : _condenser_post_object ext row tb = Except.ok post) :
    (row.category = [] → post.category = str ("undefined"))
    ∧ (row.depth = 0 → post.parent_author = []
        ∧ post.parent_permlink = post.category)
    ∧ (0 < row.depth → post.parent_author = (ext.json_loads row.raw_json).parent_author
        ∧ post.parent_permlink = (ext.json_loads row.raw_json).parent_permlink) := by
  obtain ⟨votes, -, -, -, hp⟩ := condenser_ok ext row tb post h
  subst hp
  refine ⟨?_, ?_, ?_⟩
  · intro hc
    simp [postOf, hc]
  · intro hd
    have : ¬ (row.depth > 0) := by omega
    constructor <;> simp [postOf, this]
  · intro hd
    constructor <;> simp [postOf, hd]

/-- C5: for a paid-out row the curator payout is the curator share parsed
from raw_json formatted as a 3-decimal SBD amount and the total payout is
the row payout minus that share; for an unpaid row the pending payout is
the row payout and both total and curator payout are "0.000 SBD". -/
theorem payout_split (ext : Externals) (row : PostCacheRow) (tb : Int) (post : Post)
    (h : _condenser_post_object ext row tb = Except.ok post) :
    (row.is_paidout = true →
      post.curator_payout_value =
        amountSBD (ext.sbd_amount (ext.json_loads row.raw_json).curator_payout_value)
      ∧ post.total_payout_value =
        amountSBD (row.payout - ext.sbd_amount (ext.json_loads row.raw_json).curator_payout_value))
    ∧ (row.is_paidout = false →
      post.pending_payout_value = amountSBD row.payout
      ∧ post.total_payout_value = str ("0.000 SBD")
      ∧ post.curator_payout_value = str ("0.000 SBD")) := by
  obtain ⟨votes, -, -, -, hp⟩ := condenser_ok ext row tb post h
  subst hp
  constructor
  · intro hpd
    constructor <;> simp [postOf, hpd]
  · intro hpd
    refine ⟨?_, ?_, ?_⟩ <;> simp [postOf, hpd, amountSBD_zero]

/-- C9: contract violations are fatal — `_amount` errors for every asset
tag other than SBD, and `_condenser_post_object` errors for every row whose
raw_json is missing/empty or of length at most 32. -/
theorem contract_violation_fatal :
    (∀ (m : Int) (asset : Str), asset ≠ str ("SBD") →
      ∃ e, _amount m asset = Except.error e)
    ∧ (∀ (ext : Externals) (row : PostCacheRow) (tb : Int), row.raw_json.length ≤ 32 →
      ∃ e, _condenser_post_object ext row tb = Except.error e) := by
  constructor
  · intro m asset ha
    exact ⟨"AssertionError: unhandled asset", by simp [_amount, ha]⟩
  · intro ext row tb hlen
    rw [condenser_eq]
    cases hv : _hydrate_active_votes ext row.votes
    · exact ⟨_, rfl⟩
    · by_cases h1 : row.raw_json = []
      · exact ⟨"AssertionError: raw_json", by simp [h1]⟩
      · exact ⟨"AssertionError: len raw_json", by simp [h1, hlen]⟩

theorem body_truncation_wit :
    _condenser_post_object exExternals exRow5 2 = Except.ok exPostTrunc
    ∧ (0 : Int) < 2
    ∧ exPostTrunc.body_length = exRow5.body.length
    ∧ exPostTrunc.body = exRow5.body.take ((2 : Int)).toNat := by
  have h : _condenser_post_object exExternals exRow5 2 = Except.ok exPostTrunc := by rfl
  exact ⟨h, by norm_num, (body_truncation exExternals exRow5 2 exPostTrunc h).1,
         (body_truncation exExternals exRow5 2 exPostTrunc h).2.1 (by norm_num)⟩

theorem negative_truncation_wit :
    _condenser_post_object exExternals exRow5 (-2) = Except.ok exPostNeg
    ∧ (-2 : Int) < 0
    ∧ exPostNeg.body = exRow5.body.take (exRow5.body.length - (-(-2 : Int)).toNat)
    ∧ exPostNeg.body_length = exRow5.body.length := by
  have h : _condenser_post_object exExternals exRow5 (-2) = Except.ok exPostNeg := by rfl
  exact ⟨h, by norm_num,
         (negative_truncation exExternals exRow5 (-2) exPostNeg h (by norm_num)).1,
         (negative_truncation exExternals exRow5 (-2) exPostNeg h (by norm_num)).2⟩

theorem category_parent_wit :
    _condenser_post_object exExternals exRowEmptyCat 0 = Except.ok exPostEmptyCat
    ∧ exPostEmptyCat.category = str ("undefined")
    ∧ exPostEmptyCat.parent_author = []
    ∧ exPostEmptyCat.parent_permlink = str ("undefined") := by
  have h : _condenser_post_object exExternals exRowEmptyCat 0 = Except.ok exPostEmptyCat := by
    rfl
  have hc := (category_parent exExternals exRowEmptyCat 0 exPostEmptyCat h).1 rfl
  have hp := (category_parent exExternals exRowEmptyCat 0 exPostEmptyCat h).2.1 rfl
  exact ⟨h, hc, hp.1, hp.2.trans hc⟩

theorem payout_split_wit :
    _condenser_post_object exExternals exRow5 0 = Except.ok exPostPaid
    ∧ exPostPaid.curator_payout_value = str ("2.000 SBD")
    ∧ exPostPaid.total_payout_value = str ("8.000 SBD")
    ∧ _condenser_post_object exExternals exRowUnpaid 0 = Except.ok exPostUnpaid
    ∧ exPostUnpaid.pending_payout_value = str ("10.000 SBD")
    ∧ exPostUnpaid.total_payout_value = str ("0.000 SBD")
    ∧ exPostUnpaid.curator_payout_value = str ("0.000 SBD") := by
  have h1 : _condenser_post_object exExternals exRow5 0 = Except.ok exPostPaid := by rfl
  have h2 : _condenser_post_object exExternals exRowUnpaid 0 = Except.ok exPostUnpaid := by
    rfl
  have hp := (payout_split exExternals exRow5 0 exPostPaid h1).1 rfl
  have hu := (payout_split exExternals exRowUnpaid 0 exPostUnpaid h2).2 rfl
  exact ⟨h1, hp.1.trans (by decide), hp.2.trans (by decide),
         h2, hu.1.trans (by decide), hu.2.1, hu.2.2⟩

theorem contract_violation_fatal_wit :
    (∃ e, _amount 5 (str ("STEEM")) = Except.error e)
    ∧ (∃ e, _condenser_post_object exExternals exRowShortRaw 0 = Except.error e) :=
  ⟨contract_violation_fatal.1 5 (str ("STEEM")) (by decide),
   contract_violation_fatal.2 exExternals exRowShortRaw 0 (by decide)⟩

theorem splitOnChar_not_mem {c : Char} {s : Str} (h : c ∉ s) : splitOnChar c s = [s] := by
  induction s with
  | nil => rfl
  | cons x xs ih =>
    have hx : ¬ x = c := fun hh => h (by simp [hh])
    have hxs : c ∉ xs := fun hh => h (List.mem_cons_of_mem _ hh)
    simp [splitOnChar, hx, ih hxs]

theorem splitOnChar_append {c : Char} {t : Str} (d : Str) (h : c ∉ d) :
    splitOnChar c (d ++ c :: t) = d :: splitOnChar c t := by
  induction d with
  | nil => simp [splitOnChar]
  | cons x d2 ih =>
    have hx : ¬ x = c := fun hh => h (by simp [hh])
    have hd : c ∉ d2 := fun hh => h (List.mem_cons_of_mem _ hh)
    simp only [List.cons_append, splitOnChar, if_neg hx, List.append_eq, ih hd]

theorem splitOnChar_joinWith {c : Char} {L : List Str} (hL : L ≠ [])
    (h : ∀ l ∈ L, c ∉ l) : splitOnChar c (joinWith c L) = L := by
  induction L with
  | nil => exact absurd rfl hL
  | cons a L2 ih =>
    cases L2 with
    | nil => exact splitOnChar_not_mem (h a (by simp))
    | cons b L3 =>
      have ha : c ∉ a := h a (by simp)
      have step : joinWith c (a :: b :: L3) = a ++ c :: joinWith c (b :: L3) := rfl
      rw [step, splitOnChar_append a ha,
          ih (by simp) (fun l hl => h l (List.mem_cons_of_mem _ hl))]

/-- C7: `_json_date` returns the fixed sentinel for every absent (None or
empty) input, and for every date-time string (one space separating two
space-free halves) returns it with the space replaced by the literal T. -/
theorem json_date_rules :
    (_json_date none = str ("1969-12-31T23:59:59")
      ∧ _json_date (some []) = str ("1969-12-31T23:59:59"))
    ∧ ∀ d t : Str, ' ' ∉ d → ' ' ∉ t →
        _json_date (some (d ++ ' ' :: t)) = d ++ 'T' :: t := by
  refine ⟨⟨rfl, rfl⟩, ?_⟩
  intro d t hd ht
  have hne : ¬ (d ++ ' ' :: t = []) := by simp
  simp only [_json_date, if_neg hne]
  rw [splitOnChar_append d hd, splitOnChar_not_mem ht]
  cases d <;> rfl

theorem json_date_rules_wit :
    ' ' ∉ str ("2020-01-02") ∧ ' ' ∉ str ("03:04:05")
    ∧ _json_date (some (str ("2020-01-02") ++ ' ' :: str ("03:04:05"))) =
        str ("2020-01-02") ++ 'T' :: str ("03:04:05") :=
  ⟨by decide, by decide,
   json_date_rules.2 (str ("2020-01-02")) (str ("03:04:05")) (by decide) (by decide)⟩

theorem joinWith_cons_ne_nil {c : Char} {x : Str} (xs : List Str) (hx : x ≠ []) :
    joinWith c (x :: xs) ≠ [] := by
  cases xs with
  | nil => simpa [joinWith] using hx
  | cons y ys => simp [joinWith]

theorem renderVoteLine_ne_nil (f : Str × Str × Str × Str) : renderVoteLine f ≠ [] := by
  obtain ⟨a, b, c2, d⟩ := f
  simp only [renderVoteLine, joinWith]
  cases a <;> simp

theorem renderVoteLine_split (f : Str × Str × Str × Str) (hf : voteFieldsOk f) :
    splitOnChar ',' (renderVoteLine f) = [f.1, f.2.1, f.2.2.1, f.2.2.2] := by
  refine splitOnChar_joinWith (by simp) ?_
  obtain ⟨⟨c1, c2, c3, c4⟩, -⟩ := hf
  intro l hl
  simp only [List.mem_cons, List.not_mem_nil, or_false] at hl
  rcases hl with h | h | h | h <;> subst h <;> assumption

theorem renderVoteLine_no_newline (f : Str × Str × Str × Str) (hf : voteFieldsOk f) :
    '\n' ∉ renderVoteLine f := by
  obtain ⟨-, ⟨n1, n2, n3, n4⟩⟩ := hf
  simp only [renderVoteLine, joinWith, List.mem_append, List.mem_cons]
  rintro (h | h | h | h | h | h | h)
  exacts [n1 h, absurd h (by decide), n2 h, absurd h (by decide),
          n3 h, absurd h (by decide), n4 h]

theorem decodeVotes_map (ext : Externals) (fields : List (Str × Str × Str × Str))
    (hf : ∀ f ∈ fields, voteFieldsOk f) :
    decodeVotes ext (fields.map renderVoteLine) =
      Except.ok (fields.map (fun f =>
        { voter := f.1, rshares := f.2.1, percent := f.2.2.1,
          reputation := ext.rep_to_raw f.2.2.2 })) := by
  induction fields with
  | nil => rfl
  | cons f fs ih =>
    have hsplit := renderVoteLine_split f (hf f (by simp))
    have ihh := ih (fun g hg => hf g (List.mem_cons_of_mem _ hg))
    simp [decodeVotes, hsplit, ihh]

/-- C8: `_hydrate_active_votes` maps empty input to the empty sequence, and
maps every non-empty newline-separated CSV of 4-field comma-separated lines
to one vote entry per line in input order, voter/rshares/percent copied
verbatim and reputation re-encoded via the Reputation Encoder. -/
theorem hydrate_votes (ext : Externals) :
    _hydrate_active_votes ext [] = Except.ok []
    ∧ ∀ fields : List (Str × Str × Str × Str), fields ≠ [] →
        (∀ f ∈ fields, voteFieldsOk f) →
        _hydrate_active_votes ext (voteCSV fields) =
          Except.ok (fields.map (fun f =>
            { voter := f.1, rshares := f.2.1, percent := f.2.2.1,
              reputation := ext.rep_to_raw f.2.2.2 })) := by
  refine ⟨rfl, ?_⟩
  intro fields hne hok
  have hcsv : voteCSV fields ≠ [] := by
    cases fields with
    | nil => exact absurd rfl hne
    | cons f fs =>
      exact joinWith_cons_ne_nil _ (renderVoteLine_ne_nil f)
  unfold _hydrate_active_votes
  rw [if_neg hcsv]
  unfold voteCSV
  rw [splitOnChar_joinWith (by simpa using hne)
    (fun l hl => by
      obtain ⟨f, hfm, hfe⟩ := List.mem_map.mp hl
      exact hfe ▸ renderVoteLine_no_newline f (hok f hfm))]
  exact decodeVotes_map ext fields hok

theorem hydrate_votes_wit :
    ([(str ("alice"), str ("100"), str ("10000"), str ("1"))]
        : List (Str × Str × Str × Str)) ≠ []
    ∧ _hydrate_active_votes exExternals
        (voteCSV [(str ("alice"), str ("100"), str ("10000"), str ("1"))]) =
      Except.ok [{ voter := str ("alice"), rshares := str ("100"),
                   percent := str ("10000"),
                   reputation := exExternals.rep_to_raw (str ("1")) }] :=
  ⟨by decide,
   (hydrate_votes exExternals).2
     [(str ("alice"), str ("100"), str ("10000"), str ("1"))]
     (by decide) (by decide)⟩

/-- C3: calling `load_posts_keyed` with an empty id collection always fails
with the contract-violation assertion, for every store and truncation
parameter; it never returns (in particular never an empty mapping). -/
theorem keyed_empty_contract (ext : Externals) (db : DB) (tb : Int) :
    load_posts_keyed ext db [] tb =
      Except.error ("AssertionError: no ids passed to load_posts_keyed") := rfl

theorem kPost_eq (ext : Externals) (db : DB) (tb : Int) (i : Int) :
    kPost ext db tb i = (rawPost ext db tb i).map (withFlags db i) := by
  cases hc : db.cache i with
  | none => simp [kPost, rawPost, hc]
  | some row =>
    cases hbp : _condenser_post_object ext
        { row with author_rep := db.account_rep row.author } tb with
    | error e => simp [kPost, rawPost, hc, hbp]
    | ok p =>
      cases hp : db.posts i <;> simp [kPost, rawPost, withFlags, hc, hbp, hp]

theorem flagsFun_eq (db : DB) :
    (fun ip : Int × Post =>
      match db.posts ip.1 with
      | some fr => (ip.1, mergeFlags ip.2 fr)
      | none => (ip.1, ip.2)) =
    (fun ip : Int × Post => (ip.1, withFlags db ip.1 ip.2)) := by
  funext ip
  unfold withFlags
  cases db.posts ip.1 <;> rfl

theorem alookup_graph (g : Int → Option Post) (l : List Int) (j : Int) :
    alookup (l.filterMap (fun i => (g i).map (fun p => (i, p)))) j =
      if j ∈ l then g j else none := by
  induction l with
  | nil => simp [alookup]
  | cons i l2 ih =>
    by_cases hj : j = i
    · subst hj
      cases hg : g j with
      | none =>
        simp only [List.filterMap_cons, hg, Option.map_none']
        rw [ih]
        simp [hg]
      | some p =>
        simp [List.filterMap_cons, hg, alookup]
    · cases hg : g i with
      | none =>
        simp only [List.filterMap_cons, hg, Option.map_none']
        rw [ih]
        simp [List.mem_cons, hj]
      | some p =>
        simp only [List.filterMap_cons, hg, Option.map_some']
        simp [alookup, hj, ih, List.mem_cons]

theorem alookup_map_val (m : List (Int × Post)) (h : Int → Post → Post) (j : Int) :
    alookup (m.map (fun ip : Int × Post => (ip.1, h ip.1 ip.2))) j =
      (alookup m j).map (h j) := by
  induction m with
  | nil => rfl
  | cons ip m2 ih =>
    obtain ⟨k, v⟩ := ip
    by_cases hj : j = k <;> simp [alookup, hj, ih]

theorem buildRows_filterMap (ext : Externals) (db : DB) (tb : Int) (l : List Int)
    (hwf : ∀ i ∈ l, cacheWf db i = true)
    (hb : ∀ i ∈ l, buildOk ext db tb i = true) :
    buildRows ext db tb (l.filterMap db.cache) =
      Except.ok (l.filterMap (fun i =>
        (rawPost ext db tb i).map (fun p => (i, p)))) := by
  induction l with
  | nil => rfl
  | cons i l2 ih =>
    have ih2 := ih (fun j hj => hwf j (List.mem_cons_of_mem _ hj))
      (fun j hj => hb j (List.mem_cons_of_mem _ hj))
    cases hc : db.cache i with
    | none =>
      have hraw : rawPost ext db tb i = none := by simp [rawPost, hc]
      simp only [List.filterMap_cons, hc, hraw, Option.map_none']
      exact ih2
    | some row =>
      have hid : row.post_id = i := by
        have h2 := hwf i (by simp)
        simp only [cacheWf, hc, decide_eq_true_eq] at h2
        exact h2
      have hbo := hb i (by simp)
      simp only [buildOk, hc] at hbo
      cases hbp : _condenser_post_object ext
          { row with author_rep := db.account_rep row.author } tb with
      | error e => simp [hbp] at hbo
      | ok p =>
        have hraw : rawPost ext db tb i = some p := by
          simp [rawPost, hc, hbp]
        simp only [List.filterMap_cons, hc, buildRows, hbp, exc_ok_bind, ih2,
                   hraw, Option.map_some']
        rw [hid]

theorem kPost_none_iff (ext : Externals) (db : DB) (tb : Int) (i : Int)
    (hb : buildOk ext db tb i = true) :
    (kPost ext db tb i).isNone = (db.cache i).isNone := by
  cases hc : db.cache i with
  | none => simp [kPost, hc]
  | some row =>
    simp only [buildOk, hc] at hb
    cases hbp : _condenser_post_object ext
        { row with author_rep := db.account_rep row.author } tb with
    | error e => simp [hbp] at hb
    | ok p => simp [kPost, hc, hbp]

theorem keyed_lookup (ext : Externals) (db : DB) (tb : Int) (ids : List Int)
    (hne : ids ≠ [])
    (hwf : ∀ i ∈ ids, cacheWf db i = true)
    (hb : ∀ i ∈ ids, buildOk ext db tb i = true) :
    ∃ m, load_posts_keyed ext db ids tb = Except.ok m
      ∧ ∀ j, alookup m j = if j ∈ ids then kPost ext db tb j else none := by
  have hbr := buildRows_filterMap ext db tb ids.dedup
    (fun i hi => hwf i (List.mem_dedup.mp hi))
    (fun i hi => hb i (List.mem_dedup.mp hi))
  refine ⟨(ids.dedup.filterMap (fun i =>
      (rawPost ext db tb i).map (fun p => (i, p)))).map
        (fun ip : Int × Post => (ip.1, withFlags db ip.1 ip.2)), ?_, ?_⟩
  · simp only [load_posts_keyed, if_neg hne, exc_pure_eq, exc_ok_bind,
               exc_throw_eq, hbr]
    rw [flagsFun_eq db]
  · intro j
    rw [alookup_map_val, alookup_graph]
    by_cases hj : j ∈ ids
    · simp [List.mem_dedup, hj, kPost_eq]
    · simp [List.mem_dedup, hj]

theorem occ_filter_le (l : List Int) (p : Int → Bool) (i : Int) :
    occ (l.filter p) i ≤ occ l i := by
  induction l with
  | nil => simp [occ]
  | cons x xs ih =>
    by_cases hp : p x <;> simp [List.filter_cons, hp, occ] <;> omega

theorem occ_zero_not_mem {l : List Int} {i : Int} (h : occ l i = 0) : i ∉ l := by
  induction l with
  | nil => simp
  | cons x xs ih =>
    simp only [occ] at h
    by_cases hx : x = i
    · simp [hx] at h
    · have h2 : occ xs i = 0 := by simpa [hx] using h
      intro hm
      rcases List.mem_cons.mp hm with he | hm2
      · exact hx he.symm
      · exact ih h2 hm2

theorem eraseFirst_eq_filter {l : List Int} {i : Int} (h : occ l i ≤ 1) :
    eraseFirst l i = l.filter (fun x => decide (x ≠ i)) := by
  induction l with
  | nil => rfl
  | cons x xs ih =>
    by_cases hx : x = i
    · subst hx
      have h0 : occ xs x = 0 := by simp [occ] at h; omega
      have hnm : x ∉ xs := occ_zero_not_mem h0
      have hstep : eraseFirst (x :: xs) x = xs := by simp [eraseFirst]
      rw [hstep, List.filter_cons, if_neg (by simp)]
      symm
      apply List.filter_eq_self.mpr
      intro a ha
      simp only [decide_eq_true_eq]
      exact fun he => hnm (he ▸ ha)
    · have h2 : occ xs i ≤ 1 := by simp [occ, hx] at h; omega
      have hstep : eraseFirst (x :: xs) i = x :: eraseFirst xs i := by
        simp [eraseFirst, hx]
      rw [hstep, List.filter_cons, if_pos (by simp [hx]), ih h2]

theorem foldl_eraseFirst (d : List Int) : ∀ l : List Int,
    (∀ i ∈ d, occ l i ≤ 1) →
    d.foldl eraseFirst l = l.filter (fun x => decide (x ∉ d)) := by
  induction d with
  | nil =>
    intro l h
    have he : (fun x : Int => decide (x ∉ ([] : List Int))) = fun _ => true := by
      funext x; simp
    simp [List.foldl_nil, he]
  | cons i d2 ih =>
    intro l h
    rw [List.foldl_cons, eraseFirst_eq_filter (h i (by simp)),
        ih _ (fun j hj => le_trans (occ_filter_le l _ j)
          (h j (List.mem_cons_of_mem _ hj))),
        List.filter_filter]
    apply List.filter_congr
    intro x hx
    by_cases h1 : x = i <;> by_cases h2 : x ∈ d2 <;> simp [h1, h2]

theorem recover_eq (db : DB) (d : List Int) : ∀ (l : List Int) (lg : List LogEntry),
    (∀ i ∈ d, (db.posts i).isSome = true) →
    recoverMissed db d l lg =
      Except.ok (d.foldl eraseFirst l, lg ++ d.map (logFor db)) := by
  induction d with
  | nil =>
    intro l lg h
    simp [recoverMissed]
  | cons i d2 ih =>
    intro l lg h
    obtain ⟨p, hp⟩ := Option.isSome_iff_exists.mp (h i (by simp))
    simp [recoverMissed, hp, ih _ _ (fun j hj => h j (List.mem_cons_of_mem _ hj)),
          logFor, List.foldl_cons]

theorem lookupAll_eq (m : List (Int × Post)) (l : List Int)
    (h : ∀ i ∈ l, (alookup m i).isSome = true) :
    lookupAll m l = Except.ok (l.filterMap (alookup m)) := by
  induction l with
  | nil => rfl
  | cons i l2 ih =>
    obtain ⟨p, hp⟩ := Option.isSome_iff_exists.mp (h i (by simp))
    simp [lookupAll, hp, List.filterMap_cons,
          ih (fun j hj => h j (List.mem_cons_of_mem _ hj))]

theorem filterMap_filter_eq (l : List Int) (q : Int → Bool) (f : Int → Option Post)
    (h : ∀ i ∈ l, q i = false → f i = none) :
    (l.filter q).filterMap f = l.filterMap f := by
  induction l with
  | nil => rfl
  | cons i l2 ih =>
    have ih2 := ih (fun j hj hq => h j (List.mem_cons_of_mem _ hj) hq)
    by_cases hq : q i
    · simp [List.filter_cons, hq, List.filterMap_cons, ih2]
    · have hf : f i = none := h i (by simp) (by simpa using hq)
      simp [List.filter_cons, hq, List.filterMap_cons, hf, ih2]

theorem filterMap_congr_mem (l : List Int) (f g : Int → Option Post)
    (h : ∀ i ∈ l, f i = g i) : l.filterMap f = l.filterMap g := by
  induction l with
  | nil => rfl
  | cons i l2 ih =>
    simp [List.filterMap_cons, h i (by simp),
          ih (fun j hj => h j (List.mem_cons_of_mem _ hj))]

theorem load_posts_eq (ext : Externals) (db : DB) (ids : List Int) (tb : Int)
    (hwf : ∀ i ∈ ids, cacheWf db i = true)
    (hb : ∀ i ∈ ids, buildOk ext db tb i = true)
    (hdup : ∀ i ∈ ids, (db.cache i).isNone = true → occ ids i = 1)
    (hcanon : ∀ i ∈ ids, (db.cache i).isNone = true → (db.posts i).isSome = true) :
    load_posts ext db ids tb = Except.ok
      { posts := ids.filterMap (kPost ext db tb)
        finalIds := ids.filter (fun i => (db.cache i).isSome)
        log := logOf db ids } := by
  by_cases hne : ids = []
  · subst hne
    simp [load_posts, logOf, missedOf]
  · obtain ⟨m, hm, hlook⟩ := keyed_lookup ext db tb ids hne hwf hb
    have hmissed : (ids.filter (fun i => (alookup m i).isNone)).dedup = missedOf db ids := by
      unfold missedOf
      congr 1
      apply List.filter_congr
      intro i hi
      rw [hlook i, if_pos hi, kPost_none_iff ext db tb i (hb i hi)]
    have hmemMissed : ∀ x, x ∈ missedOf db ids ↔ x ∈ ids ∧ (db.cache x).isNone = true := by
      intro x
      unfold missedOf
      rw [List.mem_dedup, List.mem_filter]
    have hcan2 : ∀ i ∈ missedOf db ids, (db.posts i).isSome = true := by
      intro i hi
      obtain ⟨h1, h2⟩ := (hmemMissed i).mp hi
      exact hcanon i h1 h2
    have hids2 : (missedOf db ids).foldl eraseFirst ids =
        ids.filter (fun i => (db.cache i).isSome) := by
      rw [foldl_eraseFirst _ ids (fun i hi => by
        obtain ⟨h1, h2⟩ := (hmemMissed i).mp hi
        exact le_of_eq (hdup i h1 h2))]
      apply List.filter_congr
      intro x hx
      by_cases hc : (db.cache x).isNone = true
      · have hxm : x ∈ missedOf db ids := (hmemMissed x).mpr ⟨hx, hc⟩
        have hs : (db.cache x).isSome = false := by
          cases hcc : db.cache x with
          | none => rfl
          | some v => rw [hcc] at hc; simp at hc
        simp [hxm, hs]
      · have hxm : x ∉ missedOf db ids := fun hh => hc ((hmemMissed x).mp hh).2
        have hs : (db.cache x).isSome = true := by
          cases hcc : db.cache x with
          | none => rw [hcc] at hc; exact absurd rfl hc
          | some v => rfl
        simp [hxm, hs]
    have hlookSome : ∀ i ∈ ids.filter (fun i => (db.cache i).isSome),
        (alookup m i).isSome = true := by
      intro i hi
      obtain ⟨h1, h2⟩ := List.mem_filter.mp hi
      rw [hlook i, if_pos h1]
      have hkn := kPost_none_iff ext db tb i (hb i h1)
      cases hk : kPost ext db tb i with
      | none =>
        rw [hk] at hkn
        cases hcc : db.cache i with
        | none => rw [hcc] at h2; simp at h2
        | some v => rw [hcc] at hkn; simp at hkn
      | some p => rfl
    have hfinal : (ids.filter (fun i => (db.cache i).isSome)).filterMap (alookup m) =
        ids.filterMap (kPost ext db tb) := by
      rw [filterMap_congr_mem _ (alookup m) (kPost ext db tb) (fun i hi => by
        obtain ⟨h1, -⟩ := List.mem_filter.mp hi
        rw [hlook i, if_pos h1])]
      apply filterMap_filter_eq
      intro i hi hq
      cases hcc : db.cache i with
      | none => simp [kPost, hcc]
      | some v => rw [hcc] at hq; simp at hq
    have hrec := recover_eq db (missedOf db ids) ids
      (if missedOf db ids = [] then [] else [LogEntry.warnMissed (missedOf db ids)]) hcan2
    have hlog : ((if missedOf db ids = [] then ([] : List LogEntry)
        else [LogEntry.warnMissed (missedOf db ids)]) ++ (missedOf db ids).map (logFor db))
        = logOf db ids := by
      unfold logOf
      by_cases hm0 : missedOf db ids = [] <;> simp [hm0]
    unfold load_posts
    rw [if_neg hne, hm]
    simp only [exc_ok_bind]
    rw [hmissed, hrec]
    simp only [exc_ok_bind]
    rw [hids2, lookupAll_eq m _ hlookSome]
    simp only [exc_ok_bind]
    rw [hfinal, hlog]

/-- C1 (amended): for every ordered id sequence in which every cache-missing
id occurs exactly once and has a canonical record, `load_posts` returns the
built posts of the cached ids in the caller's original input order (missing
ids silently dropped, output no longer than the input), logging a warning
for each missed id whose canonical record is deleted and an error for each
missed id whose record is not deleted, and the call returns normally. -/
theorem load_posts_order_recovery (ext : Externals) (db : DB) (ids : List Int) (tb : Int)
    (hwf : ∀ i ∈ ids, cacheWf db i = true)
    (hb : ∀ i ∈ ids, buildOk ext db tb i = true)
    (hdup : ∀ i ∈ ids, (db.cache i).isNone = true → occ ids i = 1)
    (hcanon : ∀ i ∈ ids, (db.cache i).isNone = true → (db.posts i).isSome = true) :
    ∃ r, load_posts ext db ids tb = Except.ok r
      ∧ r.posts = ids.filterMap (kPost ext db tb)
      ∧ r.posts.length ≤ ids.length
      ∧ ∀ i ∈ ids, db.cache i = none → ∀ p, db.posts i = some p →
          ((p.is_deleted = true → LogEntry.warnDeleted i ∈ r.log)
           ∧ (p.is_deleted = false → LogEntry.errMissing i ∈ r.log)) := by
  refine ⟨_, load_posts_eq ext db ids tb hwf hb hdup hcanon, rfl, ?_, ?_⟩
  · exact List.length_filterMap_le _ _
  · intro i hi hc p hp
    have hmem : i ∈ missedOf db ids := by
      unfold missedOf
      rw [List.mem_dedup, List.mem_filter]
      exact ⟨hi, by rw [hc]; rfl⟩
    have hne0 : missedOf db ids ≠ [] := fun hh => by simp [hh] at hmem
    refine ⟨?_, ?_⟩
    · intro hdel
      show LogEntry.warnDeleted i ∈ logOf db ids
      unfold logOf
      rw [if_neg hne0]
      refine List.mem_cons_of_mem _ (List.mem_map.mpr ⟨i, hmem, ?_⟩)
      simp [logFor, hp, hdel]
    · intro hdel
      show LogEntry.errMissing i ∈ logOf db ids
      unfold logOf
      rw [if_neg hne0]
      refine List.mem_cons_of_mem _ (List.mem_map.mpr ⟨i, hmem, ?_⟩)
      simp [logFor, hp, hdel]

theorem load_posts_order_recovery_wit :
    ∃ r, load_posts exExternals exDB [5, 6, 7] 0 = Except.ok r
      ∧ r.posts = ([5, 6, 7] : List Int).filterMap (kPost exExternals exDB 0)
      ∧ r.posts.length ≤ ([5, 6, 7] : List Int).length
      ∧ ∀ i ∈ ([5, 6, 7] : List Int), exDB.cache i = none →
          ∀ p, exDB.posts i = some p →
          ((p.is_deleted = true → LogEntry.warnDeleted i ∈ r.log)
           ∧ (p.is_deleted = false → LogEntry.errMissing i ∈ r.log)) :=
  load_posts_order_recovery exExternals exDB [5, 6, 7] 0
    (by decide) (by decide) (by decide) (by decide)

/-- C1 counterexample: for the input sequence [6, 6] where id 6 has no
cache row and its canonical record is deleted, the call raises (a KeyError)
instead of succeeding: list.remove drops only the first occurrence of the
missed id, and the final re-projection then fails on the second one. -/
theorem load_posts_dup_missing_raises :
    loadOk (load_posts exExternals exDB [6, 6] 0) = false := by decide

/-- C2 (amended): load_posts mutates the caller's ids sequence exactly by
removing the cache-missing ids: under the C1 side conditions the sequence
after the call is the original filtered to the cached ids; in particular it
is unchanged when every requested id has a cache row. -/
theorem load_posts_ids_after (ext : Externals) (db : DB) (ids : List Int) (tb : Int)
    (hwf : ∀ i ∈ ids, cacheWf db i = true)
    (hb : ∀ i ∈ ids, buildOk ext db tb i = true)
    (hdup : ∀ i ∈ ids, (db.cache i).isNone = true → occ ids i = 1)
    (hcanon : ∀ i ∈ ids, (db.cache i).isNone = true → (db.posts i).isSome = true) :
    ∃ r, load_posts ext db ids tb = Except.ok r
      ∧ r.finalIds = ids.filter (fun i => (db.cache i).isSome)
      ∧ ((∀ i ∈ ids, (db.cache i).isSome = true) → r.finalIds = ids) := by
  refine ⟨_, load_posts_eq ext db ids tb hwf hb hdup hcanon, rfl, ?_⟩
  intro hall
  show ids.filter (fun i => (db.cache i).isSome) = ids
  exact List.filter_eq_self.mpr hall

theorem load_posts_ids_after_wit :
    ∃ r, load_posts exExternals exDB [5, 6, 7] 0 = Except.ok r
      ∧ r.finalIds = ([5, 6, 7] : List Int).filter (fun i => (exDB.cache i).isSome)
      ∧ ((∀ i ∈ ([5, 6, 7] : List Int), (exDB.cache i).isSome = true) →
          r.finalIds = [5, 6, 7]) :=
  load_posts_ids_after exExternals exDB [5, 6, 7] 0
    (by decide) (by decide) (by decide) (by decide)

/-- C2 counterexample: the call `load_posts([5, 6, 7])` on a store where id
6 has no cache row leaves the caller's ids list as [5, 7] — the loader
mutates the input sequence in place, so it is not side-effect-free beyond
logging. -/
theorem load_posts_mutates_ids :
    finalIdsOf (load_posts exExternals exDB [5, 6, 7] 0) = some [5, 7]
    ∧ finalIdsOf (load_posts exExternals exDB [5, 6, 7] 0) ≠ some [5, 6, 7] := by
  constructor <;> decide
